import Mathlib

/-!
Verification of the resilient request executor of the ynab-cli repository.

The executor lives in `internal/api/client.go` (`Client.request`) with its
error taxonomy in `internal/api/errors.go`.  The shallow embedding below
translates that code: durations are modelled in whole seconds (the source's
time-units: `InitialBackoff = 1 * time.Second`, `Retry-After` counted in
seconds), machine integers as `Nat`/`Int`, and the network as a function from
the attempt index to the outcome of that attempt's HTTP exchange.
JSON decoding (`json.Unmarshal` of the error envelope) is abstracted as a
parameter `parse : String → Option Envelope`; the executor's use of its result
(`err == nil && errorResp.Error.Name != ""`) is embedded faithfully.
-/

namespace YnabCli

/-- Constant `MaxRetries` from client.go: maximum number of retry attempts. -/
def MaxRetries : Nat := 3

/-- Constant `InitialBackoff` from client.go (`1 * time.Second`), in seconds. -/
def InitialBackoff : Int := 1

/-- Structure `YNABError` from errors.go: message, originating status code,
service-supplied error id and detail. -/
structure YNABError where
  Message : String
  StatusCode : Nat
  ErrorID : String
  Detail : String
deriving Repr, DecidableEq

/-- Predicate `YNABError.IsServerError` from errors.go: status in [500, 600). -/
def YNABError.IsServerError (e : YNABError) : Bool :=
  decide (500 ≤ e.StatusCode ∧ e.StatusCode < 600)

/-- Predicate `YNABError.IsRateLimitError` from errors.go: status = 429. -/
def YNABError.IsRateLimitError (e : YNABError) : Bool :=
  decide (e.StatusCode = 429)

/-- Predicate `YNABError.IsAuthError` from errors.go: status = 401. -/
def YNABError.IsAuthError (e : YNABError) : Bool :=
  decide (e.StatusCode = 401)

/-- Predicate `YNABError.IsNotFoundError` from errors.go: status = 404. -/
def YNABError.IsNotFoundError (e : YNABError) : Bool :=
  decide (e.StatusCode = 404)

/-- Predicate `YNABError.IsBadRequestError` from errors.go: status = 400. -/
def YNABError.IsBadRequestError (e : YNABError) : Bool :=
  decide (e.StatusCode = 400)

/-- Predicate `YNABError.IsRetryable` from errors.go: rate-limit or server error. -/
def YNABError.IsRetryable (e : YNABError) : Bool :=
  e.IsRateLimitError || e.IsServerError

/-- Constructor `NewAuthError` from errors.go. -/
def NewAuthError : YNABError :=
  { Message := "Unauthorized: Invalid or missing access token"
    StatusCode := 401
    ErrorID := ""
    Detail := "Please check your YNAB_ACCESS_TOKEN environment variable" }

/-- Constructor `NewRateLimitError` from errors.go; `retryAfter` is a Go `int`
(possibly negative), printed with `%d`. -/
def NewRateLimitError (retryAfter : Int) : YNABError :=
  { Message := "Rate limit exceeded. Retry after " ++ toString retryAfter
                 ++ " seconds"
    StatusCode := 429
    ErrorID := ""
    Detail := "YNAB API has rate limits. Please wait before retrying" }

/-- The decoded form of the JSON error envelope
`{"error":{"id":...,"name":...,"detail":...}}` targeted by the
`errorResp` struct in client.go. -/
structure Envelope where
  id : String
  name : String
  detail : String
deriving Repr, DecidableEq

/-- Go's `strconv.Atoi`: optional single sign then one or more decimal
digits; anything else fails.  (The 64-bit range check of the Go
implementation is omitted: no claim involves values of that size.) -/
def goAtoi (s : String) : Option Int :=
  match s.toList with
  | [] => none
  | c :: rest =>
    let (sign, digits) :=
      if c = '-' then ((-1 : Int), rest)
      else if c = '+' then (1, rest)
      else (1, c :: rest)
    if digits = [] then none
    else if digits.all Char.isDigit then
      some (sign * (digits.foldl (fun a d => a * 10 + (d.toNat - 48)) 0 : Nat))
    else none

/-- The `retryAfter` computation of client.go lines 95–100: start from the
default 60, overwrite with `strconv.Atoi` of the `Retry-After` header when the
header is non-empty and `Atoi` succeeds (`header = ""` models a missing
header, as `Header.Get` returns `""` then). -/
def retryAfterOf (header : String) : Int :=
  if header ≠ "" then
    match goAtoi header with
    | some v => v
    | none => 60
  else 60

/-- The error-envelope classification of client.go lines 109–133 for a
non-2xx response: if the body unmarshals and the envelope name is non-empty,
build the error from the envelope; otherwise the synthetic
`"HTTP request failed: <status line>"` fallback with empty id/detail.
`status` is Go's `resp.Status` (e.g. `"500 Internal Server Error"`). -/
def classifyNon2xx (parse : String → Option Envelope) (statusCode : Nat)
    (status body : String) : YNABError :=
  match parse body with
  | some env =>
    if env.name ≠ "" then
      { Message := env.name, StatusCode := statusCode
        ErrorID := env.id, Detail := env.detail }
    else
      { Message := "HTTP request failed: " ++ status, StatusCode := statusCode
        ErrorID := "", Detail := "" }
  | none =>
      { Message := "HTTP request failed: " ++ status, StatusCode := statusCode
        ErrorID := "", Detail := "" }

/-- One HTTP response as the executor sees it: `resp.StatusCode`,
`resp.Status` (the status line), `resp.Header.Get "Retry-After"`
(`""` when absent), and the fully read body bytes. -/
structure HTTPResponse where
  statusCode : Nat
  status : String
  retryAfter : String
  body : String
deriving Repr, DecidableEq

/-- The outcome of one attempt's network interaction:
`doErr` models `c.httpClient.Do` returning an error (transport failure);
`readErr resp` models a completed exchange whose `io.ReadAll(resp.Body)`
fails; `ok resp` a completed exchange with body `resp.body`. -/
inductive NetResult where
  | doErr : NetResult
  | readErr : HTTPResponse → NetResult
  | ok : HTTPResponse → NetResult
deriving Repr, DecidableEq

/-- The error value the embedded `request` returns, mirroring the Go
`error` values it can produce: the `fmt.Errorf` wrappers for transport and
body-read failures, a `*YNABError`, the retries-exhausted wrap of the last
error, and the (lastErr = nil) exhaustion message. -/
inductive ReqError where
  | requestFailed : ReqError
  | readFailed : ReqError
  | ynab : YNABError → ReqError
  | exhausted : ReqError → ReqError
  | exhaustedNoErr : ReqError
deriving Repr, DecidableEq

/-- The `([]byte, error)` pair `request` returns: exactly one of the two is
meaningful in the Go code, so it is a sum. -/
inductive Ret where
  | ok : String → Ret
  | error : ReqError → Ret
deriving Repr, DecidableEq

/-- The observable result of one `request` call: the returned
`([]byte, error)` pair, the number of HTTP attempts performed, the ordered
list of durations passed to `time.Sleep` (seconds, possibly negative —
Go's `time.Sleep` returns immediately on a non-positive duration), and the
body bytes handed to the transport on each attempt. -/
structure ExecResult where
  ret : Ret
  attempts : Nat
  sleeps : List Int
  sentBodies : List String
deriving Repr, DecidableEq

/-- The loop body of `Client.request` (client.go lines 59–157), one
constructor of `fuel` per remaining iteration of
`for attempt := 0; attempt <= MaxRetries; attempt++`; `request` below
supplies `fuel = MaxRetries + 1`, so `fuel = 0` is exactly the loop
condition failing.  State: the `attempt` counter, the mutable `backoff`,
`lastErr`, the unread remainder of the shared request-body reader
(`http.NewRequest` receives the same `io.Reader` on every iteration and a
completed exchange drains it), and the accumulated sleep/sent logs.
`http.NewRequest` itself is modelled as always succeeding: the method and
URL come from the typed callers and are well-formed. -/
def requestLoop (parse : String → Option Envelope) (net : Nat → NetResult) :
    Nat → Nat → Int → Option ReqError → String → List Int → List String →
      ExecResult
  | 0, attempt, _backoff, lastErr, _bodyRem, sleeps, sent =>
    -- all retries exhausted: "request failed after %d retries[: %w]"
    match lastErr with
    | some e => ⟨.error (.exhausted e), attempt, sleeps, sent⟩
    | none => ⟨.error .exhaustedNoErr, attempt, sleeps, sent⟩
  | fuel + 1, attempt, backoff, _lastErr, bodyRem, sleeps, sent =>
    -- if attempt > 0 { time.Sleep(backoff); backoff *= 2 }
    let sleeps1 := if 0 < attempt then sleeps ++ [backoff] else sleeps
    let backoff1 := if 0 < attempt then backoff * 2 else backoff
    -- http.NewRequest(method, url, body): the exchange consumes the reader
    let sent1 := sent ++ [bodyRem]
    match net attempt with
    | .doErr =>
      -- lastErr = "request failed: %w"; continue
      requestLoop parse net fuel (attempt + 1) backoff1 (some .requestFailed)
        "" sleeps1 sent1
    | .readErr _ =>
      -- lastErr = "failed to read response: %w"; continue
      requestLoop parse net fuel (attempt + 1) backoff1 (some .readFailed)
        "" sleeps1 sent1
    | .ok resp =>
      if resp.statusCode = 429 then
        -- rate limited: compute retryAfter, record the error,
        -- time.Sleep(retryAfter * time.Second), continue
        requestLoop parse net fuel (attempt + 1) backoff1
          (some (.ynab (NewRateLimitError (retryAfterOf resp.retryAfter))))
          "" (sleeps1 ++ [retryAfterOf resp.retryAfter]) sent1
      else if resp.statusCode < 200 ∨ 300 ≤ resp.statusCode then
        if resp.statusCode = 401 then
          ⟨.error (.ynab NewAuthError), attempt + 1, sleeps1, sent1⟩
        else if (classifyNon2xx parse resp.statusCode resp.status
            resp.body).IsServerError then
          requestLoop parse net fuel (attempt + 1) backoff1
            (some (.ynab (classifyNon2xx parse resp.statusCode resp.status
              resp.body))) "" sleeps1 sent1
        else
          ⟨.error (.ynab (classifyNon2xx parse resp.statusCode resp.status
            resp.body)), attempt + 1, sleeps1, sent1⟩
      else
        ⟨.ok resp.body, attempt + 1, sleeps1, sent1⟩

/-- Function `Client.request`: run the loop from attempt 0 with the initial backoff,
no recorded error, the request body unconsumed and empty logs. -/
def request (parse : String → Option Envelope) (net : Nat → NetResult)
    (body : String) : ExecResult :=
  requestLoop parse net (MaxRetries + 1) 0 InitialBackoff none body [] []

/-- Wall-clock seconds actually slept: `time.Sleep` waits `max d 0`. -/
def elapsed (r : ExecResult) : Int :=
  (r.sleeps.map (fun d => max d 0)).sum

/-- Number of 429 responses among the first `m` attempts starting at
attempt index `start`. -/
def count429From (net : Nat → NetResult) (start m : Nat) : Nat :=
  match m with
  | 0 => 0
  | m + 1 =>
    (match net start with
     | .ok resp => if resp.statusCode = 429 then 1 else 0
     | _ => 0) + count429From net (start + 1) m

/-- Outcomes on which the loop body ends in `continue` (another attempt
follows while budget remains): transport failure, body-read failure,
a 429 response, or a 5xx response. -/
def continuesLoop : NetResult → Bool
  | .doErr => true
  | .readErr _ => true
  | .ok resp =>
    decide (resp.statusCode = 429
      ∨ (500 ≤ resp.statusCode ∧ resp.statusCode < 600))

/-- Outcomes that `continue` through the generic exponential-backoff path
only (no rate-limit sleep): transport failure, body-read failure, 5xx. -/
def retriesViaBackoff : NetResult → Bool
  | .doErr => true
  | .readErr _ => true
  | .ok resp => decide (500 ≤ resp.statusCode ∧ resp.statusCode < 600)

/-- The sleep the 429 handler performs while processing the given outcome:
`[retryAfter]` for a 429 response, nothing otherwise. -/
def rlSleepOf : NetResult → List Int
  | .ok resp =>
    if resp.statusCode = 429 then [retryAfterOf resp.retryAfter] else []
  | _ => []

/-! Concrete servers (attempt index ↦ network outcome) for the testable
scenarios of the specification, and a parse oracle for bodies that carry no
well-formed error envelope. -/

/-- A 200 response with a recognizable body. -/
def respOK : HTTPResponse :=
  { statusCode := 200, status := "200 OK", retryAfter := "", body := "DATA" }

/-- A 500 response with an unparsable body. -/
def resp500 : HTTPResponse :=
  { statusCode := 500, status := "500 Internal Server Error"
    retryAfter := "", body := "invalid json" }

/-- A 429 response carrying the given `Retry-After` header value
(`""` = header absent). -/
def resp429 (hdr : String) : HTTPResponse :=
  { statusCode := 429, status := "429 Too Many Requests"
    retryAfter := hdr, body := "" }

/-- A 404 response with an unparsable body. -/
def resp404 : HTTPResponse :=
  { statusCode := 404, status := "404 Not Found", retryAfter := ""
    body := "nope" }

/-- Parse oracle for bodies none of which is a well-formed error envelope. -/
def parseNone : String → Option Envelope := fun _ => none

/-- Server: first attempt 429 with `Retry-After: 5`, then 200. -/
def net429Retry5Then200 : Nat → NetResult := fun n =>
  if n = 0 then .ok (resp429 "5") else .ok respOK

/-- Server: first attempt 429 with `Retry-After: -5`, then 200. -/
def net429Neg5Then200 : Nat → NetResult := fun n =>
  if n = 0 then .ok (resp429 "-5") else .ok respOK

/-- Server: 429 with no `Retry-After` header on every attempt. -/
def netAlways429 : Nat → NetResult := fun _ => .ok (resp429 "")

/-- Server: 500 on every attempt. -/
def netAlways500 : Nat → NetResult := fun _ => .ok resp500

/-- Server: 500 on the first attempt, 200 afterwards. -/
def net500Then200 : Nat → NetResult := fun n =>
  if n = 0 then .ok resp500 else .ok respOK

/-- Server: every exchange completes with a 200 status but reading the
response body fails every time. -/
def netAlwaysReadErr : Nat → NetResult := fun _ => .readErr respOK

/-- Server: 404 on every attempt. -/
def netAlways404 : Nat → NetResult := fun _ => .ok resp404

/-- Server: 200 on every attempt. -/
def netAlways200 : Nat → NetResult := fun _ => .ok respOK

/-- Server: first attempt 429 with the given `Retry-After` header value,
then 200. -/
def net429HdrThen200 (hdr : String) : Nat → NetResult := fun n =>
  if n = 0 then .ok (resp429 hdr) else .ok respOK

/-- A 401 response whose body is a well-formed error envelope. -/
def resp401 : HTTPResponse :=
  { statusCode := 401, status := "401 Unauthorized", retryAfter := ""
    body := "\x7b\"error\":\x7b\"id\":\"e1\",\"name\":\"Bad Request\",\"detail\":\"missing field\"\x7d\x7d" }

/-- Server: 401 on every attempt. -/
def netAlways401 : Nat → NetResult := fun _ => .ok resp401

/-- Parse oracle modelling `json.Unmarshal` succeeding on every body with
the well-formed envelope `id = "e1"`, `name = "Bad Request"`,
`detail = "missing field"`. -/
def parseEnvAll : String → Option Envelope :=
  fun _ => some { id := "e1", name := "Bad Request", detail := "missing field" }

/-- The well-formed envelope body
`{"error":{"id":"e1","name":"Bad Request","detail":"missing field"}}`. -/
def envBody1 : String :=
  "\x7b\"error\":\x7b\"id\":\"e1\",\"name\":\"Bad Request\",\"detail\":\"missing field\"\x7d\x7d"

/-- Parse oracle modelling `json.Unmarshal` succeeding exactly on
`envBody1`. -/
def parseEnv1 : String → Option Envelope := fun s =>
  if s = envBody1
  then some { id := "e1", name := "Bad Request", detail := "missing field" }
  else none

/-! Structural lemmas about the attempt counter of the loop. -/

lemma requestLoop_attempts_ge (parse : String → Option Envelope)
    (net : Nat → NetResult) :
    ∀ fuel attempt backoff lastErr bodyRem sleeps sent,
      attempt ≤ (requestLoop parse net fuel attempt backoff lastErr bodyRem
        sleeps sent).attempts := by
  intro fuel
  induction fuel with
  | zero =>
    intro attempt backoff lastErr bodyRem sleeps sent
    cases lastErr <;> simp [requestLoop]
  | succ f ih =>
    intro attempt backoff lastErr bodyRem sleeps sent
    cases hnet : net attempt with
    | doErr =>
      simp only [requestLoop, hnet]
      exact le_trans (Nat.le_succ _) (ih _ _ _ _ _ _)
    | readErr resp =>
      simp only [requestLoop, hnet]
      exact le_trans (Nat.le_succ _) (ih _ _ _ _ _ _)
    | ok resp =>
      simp only [requestLoop, hnet]
      split
      · exact le_trans (Nat.le_succ _) (ih _ _ _ _ _ _)
      · split
        · split
          · simp
          · split
            · exact le_trans (Nat.le_succ _) (ih _ _ _ _ _ _)
            · simp
        · simp

lemma requestLoop_attempts_ub (parse : String → Option Envelope)
    (net : Nat → NetResult) :
    ∀ fuel attempt backoff lastErr bodyRem sleeps sent,
      (requestLoop parse net fuel attempt backoff lastErr bodyRem
        sleeps sent).attempts ≤ attempt + fuel := by
  intro fuel
  induction fuel with
  | zero =>
    intro attempt backoff lastErr bodyRem sleeps sent
    cases lastErr <;> simp [requestLoop]
  | succ f ih =>
    intro attempt backoff lastErr bodyRem sleeps sent
    cases hnet : net attempt with
    | doErr =>
      simp only [requestLoop, hnet]
      have := ih (attempt + 1) (if 0 < attempt then backoff * 2 else backoff)
        (some .requestFailed) ""
        (if 0 < attempt then sleeps ++ [backoff] else sleeps)
        (sent ++ [bodyRem])
      omega
    | readErr resp =>
      simp only [requestLoop, hnet]
      have := ih (attempt + 1) (if 0 < attempt then backoff * 2 else backoff)
        (some .readFailed) ""
        (if 0 < attempt then sleeps ++ [backoff] else sleeps)
        (sent ++ [bodyRem])
      omega
    | ok resp =>
      simp only [requestLoop, hnet]
      split
      · have := ih (attempt + 1)
          (if 0 < attempt then backoff * 2 else backoff)
          (some (.ynab (NewRateLimitError (retryAfterOf resp.retryAfter)))) ""
          ((if 0 < attempt then sleeps ++ [backoff] else sleeps)
            ++ [retryAfterOf resp.retryAfter])
          (sent ++ [bodyRem])
        omega
      · split
        · split
          · simp
          · split
            · have := ih (attempt + 1)
                (if 0 < attempt then backoff * 2 else backoff)
                (some (.ynab (classifyNon2xx parse resp.statusCode resp.status
                  resp.body))) ""
                (if 0 < attempt then sleeps ++ [backoff] else sleeps)
                (sent ++ [bodyRem])
              omega
            · simp
        · simp

lemma requestLoop_attempts_lb (parse : String → Option Envelope)
    (net : Nat → NetResult) :
    ∀ fuel attempt backoff lastErr bodyRem sleeps sent, 0 < fuel →
      attempt + 1 ≤ (requestLoop parse net fuel attempt backoff lastErr
        bodyRem sleeps sent).attempts := by
  intro fuel
  cases fuel with
  | zero => intro _ _ _ _ _ _ h; omega
  | succ f =>
    intro attempt backoff lastErr bodyRem sleeps sent _
    cases hnet : net attempt with
    | doErr =>
      simp only [requestLoop, hnet]
      exact requestLoop_attempts_ge parse net _ _ _ _ _ _ _
    | readErr resp =>
      simp only [requestLoop, hnet]
      exact requestLoop_attempts_ge parse net _ _ _ _ _ _ _
    | ok resp =>
      simp only [requestLoop, hnet]
      split
      · exact requestLoop_attempts_ge parse net _ _ _ _ _ _ _
      · split
        · split
          · simp
          · split
            · exact requestLoop_attempts_ge parse net _ _ _ _ _ _ _
            · simp
        · simp

lemma classifyNon2xx_StatusCode (parse : String → Option Envelope)
    (sc : Nat) (st bd : String) :
    (classifyNon2xx parse sc st bd).StatusCode = sc := by
  unfold classifyNon2xx
  cases parse bd with
  | none => rfl
  | some env => by_cases h : env.name = "" <;> simp [h]

/-- One `continue` iteration of the loop: on a transport failure, a read
failure, a 429 or a 5xx, the iteration records some error, performs the
top-of-loop backoff sleep when `attempt > 0` plus the rate-limit sleep when
the outcome is a 429, doubles the backoff when `attempt > 0`, consumes the
request-body reader, and proceeds to the next iteration. -/
lemma requestLoop_step (parse : String → Option Envelope)
    (net : Nat → NetResult) (fuel attempt : Nat) (backoff : Int)
    (lastErr : Option ReqError) (bodyRem : String) (sleeps : List Int)
    (sent : List String) (h : continuesLoop (net attempt) = true) :
    ∃ e : ReqError,
      requestLoop parse net (fuel + 1) attempt backoff lastErr bodyRem
          sleeps sent
        = requestLoop parse net fuel (attempt + 1)
            (if 0 < attempt then backoff * 2 else backoff) (some e) ""
            ((if 0 < attempt then sleeps ++ [backoff] else sleeps)
              ++ rlSleepOf (net attempt))
            (sent ++ [bodyRem]) := by
  cases hnet : net attempt with
  | doErr =>
    exact ⟨.requestFailed, by simp [requestLoop, hnet, rlSleepOf]⟩
  | readErr resp =>
    exact ⟨.readFailed, by simp [requestLoop, hnet, rlSleepOf]⟩
  | ok resp =>
    rw [hnet] at h
    simp only [continuesLoop, decide_eq_true_eq] at h
    by_cases h429 : resp.statusCode = 429
    · refine ⟨.ynab (NewRateLimitError (retryAfterOf resp.retryAfter)), ?_⟩
      simp [requestLoop, hnet, rlSleepOf, h429]
    · have hsrv : 500 ≤ resp.statusCode ∧ resp.statusCode < 600 := by
        rcases h with h | h
        · exact absurd h h429
        · exact h
      refine ⟨.ynab (classifyNon2xx parse resp.statusCode resp.status
        resp.body), ?_⟩
      have hSrv : (classifyNon2xx parse resp.statusCode resp.status
          resp.body).IsServerError = true := by
        simp [YNABError.IsServerError, classifyNon2xx_StatusCode]
        omega
      simp only [requestLoop, hnet]
      rw [if_neg h429]
      rw [if_pos (show resp.statusCode < 200 ∨ 300 ≤ resp.statusCode by
        omega)]
      rw [if_neg (show ¬resp.statusCode = 401 by omega)]
      rw [if_pos hSrv]
      simp [rlSleepOf, hnet, h429]

/-- A run of iterations started at `attempt ≥ 1` in which every remaining
attempt's outcome goes through the generic backoff `continue` path consumes
all of `fuel` and sleeps the exponential schedule
`backoff, backoff*2, backoff*4, ...`, one sleep per iteration. -/
lemma requestLoop_backoffRun (parse : String → Option Envelope)
    (net : Nat → NetResult) :
    ∀ fuel attempt backoff lastErr bodyRem sleeps sent, 0 < attempt →
      (∀ n, attempt ≤ n → n < attempt + fuel →
        retriesViaBackoff (net n) = true) →
      (requestLoop parse net fuel attempt backoff lastErr bodyRem sleeps
        sent).attempts = attempt + fuel ∧
      (requestLoop parse net fuel attempt backoff lastErr bodyRem sleeps
        sent).sleeps
        = sleeps ++ (List.range fuel).map (fun i => backoff * 2 ^ i) := by
  intro fuel
  induction fuel with
  | zero =>
    intro attempt backoff lastErr bodyRem sleeps sent _ _
    cases lastErr <;> simp [requestLoop]
  | succ f ih =>
    intro attempt backoff lastErr bodyRem sleeps sent ha hall
    have hthis : retriesViaBackoff (net attempt) = true :=
      hall attempt le_rfl (by omega)
    have hcont : continuesLoop (net attempt) = true := by
      cases hnet : net attempt with
      | doErr => rfl
      | readErr resp => rfl
      | ok resp =>
        rw [hnet] at hthis
        simp only [retriesViaBackoff, decide_eq_true_eq] at hthis
        simp only [continuesLoop, decide_eq_true_eq]
        right; exact hthis
    have hnorl : rlSleepOf (net attempt) = [] := by
      cases hnet : net attempt with
      | doErr => rfl
      | readErr resp => rfl
      | ok resp =>
        rw [hnet] at hthis
        simp only [retriesViaBackoff, decide_eq_true_eq] at hthis
        simp only [rlSleepOf]
        rw [if_neg (show ¬resp.statusCode = 429 by omega)]
    obtain ⟨e, hstep⟩ := requestLoop_step parse net f attempt backoff lastErr
      bodyRem sleeps sent hcont
    rw [hstep]
    simp only [hnorl, if_pos ha, List.append_nil]
    have := ih (attempt + 1) (backoff * 2) (some e) ""
      (sleeps ++ [backoff]) (sent ++ [bodyRem]) (by omega)
      (fun n hn1 hn2 => hall n (by omega) (by omega))
    refine ⟨by omega, ?_⟩
    rw [this.2]
    rw [List.append_assoc]
    congr 1
    rw [List.range_succ_eq_map]
    simp only [List.map_cons, List.map_map, pow_zero, mul_one,
      List.cons_append, List.nil_append, List.singleton_append]
    congr 1
    apply List.map_congr_left
    intro i _
    simp only [Function.comp_apply, pow_succ]
    ring

/-- An iteration whose outcome does not `continue` (a response that is 2xx,
or non-2xx other than 429 and 5xx) ends the loop at that very iteration:
the only sleeps of the iteration are the top-of-loop backoff sleep (when
`attempt > 0`), and the call returns with `attempt + 1` attempts made. -/
lemma requestLoop_stop (parse : String → Option Envelope)
    (net : Nat → NetResult) (fuel attempt : Nat) (backoff : Int)
    (lastErr : Option ReqError) (bodyRem : String) (sleeps : List Int)
    (sent : List String) (h : continuesLoop (net attempt) = false) :
    ∃ rv : Ret,
      requestLoop parse net (fuel + 1) attempt backoff lastErr bodyRem
          sleeps sent
        = ⟨rv, attempt + 1,
            (if 0 < attempt then sleeps ++ [backoff] else sleeps),
            sent ++ [bodyRem]⟩ := by
  cases hnet : net attempt with
  | doErr => rw [hnet] at h; simp [continuesLoop] at h
  | readErr resp => rw [hnet] at h; simp [continuesLoop] at h
  | ok resp =>
    rw [hnet] at h
    simp only [continuesLoop, decide_eq_false_iff_not, not_or] at h
    obtain ⟨h429, hsrv⟩ := h
    by_cases hn2 : resp.statusCode < 200 ∨ 300 ≤ resp.statusCode
    · by_cases h401 : resp.statusCode = 401
      · refine ⟨.error (.ynab NewAuthError), ?_⟩
        simp only [requestLoop, hnet]
        rw [if_neg h429, if_pos hn2, if_pos h401]
      · have hSrvF : (classifyNon2xx parse resp.statusCode resp.status
            resp.body).IsServerError = false := by
          simp [YNABError.IsServerError, classifyNon2xx_StatusCode]
          omega
        refine ⟨.error (.ynab (classifyNon2xx parse resp.statusCode
          resp.status resp.body)), ?_⟩
        simp only [requestLoop, hnet]
        rw [if_neg h429, if_pos hn2, if_neg h401, if_neg (by simp [hSrvF])]
    · refine ⟨.ok resp.body, ?_⟩
      simp only [requestLoop, hnet]
      rw [if_neg h429, if_neg hn2]

/-- Unfolding of `count429From` by one attempt: the head contribution is
the length of the rate-limit sleep the 429 handler performs there. -/
lemma count429From_succ (net : Nat → NetResult) (start m : Nat) :
    count429From net start (m + 1)
      = (rlSleepOf (net start)).length + count429From net (start + 1) m := by
  simp only [count429From]
  congr 1
  cases hnet : net start with
  | doErr => rfl
  | readErr resp => rfl
  | ok resp => by_cases h : resp.statusCode = 429 <;> simp [rlSleepOf, h]

/-- A non-continuing outcome performs no rate-limit sleep. -/
lemma rlSleepOf_nil_of_stop (nr : NetResult)
    (h : continuesLoop nr = false) : rlSleepOf nr = [] := by
  cases nr with
  | doErr => simp [continuesLoop] at h
  | readErr resp => simp [continuesLoop] at h
  | ok resp =>
    simp only [continuesLoop, decide_eq_false_iff_not, not_or] at h
    simp [rlSleepOf, h.1]

/-- Sleep accounting for a run started at `attempt ≥ 1`: every entered
iteration contributes its top-of-loop backoff sleep, plus one extra
rate-limit sleep for every iteration whose outcome is a 429 response. -/
lemma requestLoop_sleeps_length (parse : String → Option Envelope)
    (net : Nat → NetResult) :
    ∀ fuel attempt backoff lastErr bodyRem sleeps sent, 0 < attempt →
      (requestLoop parse net fuel attempt backoff lastErr bodyRem sleeps
        sent).sleeps.length
        = sleeps.length
          + ((requestLoop parse net fuel attempt backoff lastErr bodyRem
              sleeps sent).attempts - attempt)
          + count429From net attempt
              ((requestLoop parse net fuel attempt backoff lastErr bodyRem
                sleeps sent).attempts - attempt) := by
  intro fuel
  induction fuel with
  | zero =>
    intro attempt backoff lastErr bodyRem sleeps sent _
    cases lastErr <;> simp [requestLoop, count429From]
  | succ f ih =>
    intro attempt backoff lastErr bodyRem sleeps sent ha
    by_cases hcont : continuesLoop (net attempt) = true
    · obtain ⟨e, hstep⟩ := requestLoop_step parse net f attempt backoff
        lastErr bodyRem sleeps sent hcont
      rw [hstep]
      simp only [if_pos ha]
      have hge := requestLoop_attempts_ge parse net f (attempt + 1)
        (backoff * 2) (some e) ""
        ((sleeps ++ [backoff]) ++ rlSleepOf (net attempt))
        (sent ++ [bodyRem])
      have ihx := ih (attempt + 1) (backoff * 2) (some e) ""
        ((sleeps ++ [backoff]) ++ rlSleepOf (net attempt))
        (sent ++ [bodyRem]) (by omega)
      have hm : (requestLoop parse net f (attempt + 1) (backoff * 2)
          (some e) "" ((sleeps ++ [backoff]) ++ rlSleepOf (net attempt))
          (sent ++ [bodyRem])).attempts - attempt
          = ((requestLoop parse net f (attempt + 1) (backoff * 2)
              (some e) "" ((sleeps ++ [backoff]) ++ rlSleepOf (net attempt))
              (sent ++ [bodyRem])).attempts - (attempt + 1)) + 1 := by
        omega
      rw [hm, count429From_succ]
      have hlen : ((sleeps ++ [backoff]) ++ rlSleepOf (net attempt)).length
          = sleeps.length + 1 + (rlSleepOf (net attempt)).length := by
        simp
        omega
      omega
    · rw [Bool.not_eq_true] at hcont
      obtain ⟨rv, hstop⟩ := requestLoop_stop parse net f attempt backoff
        lastErr bodyRem sleeps sent hcont
      rw [hstop]
      simp only [if_pos ha]
      have h1 : attempt + 1 - attempt = 1 := by omega
      simp only [h1]
      rw [count429From_succ, rlSleepOf_nil_of_stop _ hcont]
      simp [count429From]

/-- If attempts `attempt, ..., k-1` all `continue` and attempt `k` receives
a 2xx response within the remaining budget, the call returns that response's
body with exactly `k + 1` attempts made. -/
lemma requestLoop_reach2xx (parse : String → Option Envelope)
    (net : Nat → NetResult) :
    ∀ fuel attempt backoff lastErr bodyRem sleeps sent k resp,
      attempt ≤ k → k < attempt + fuel →
      (∀ n, attempt ≤ n → n < k → continuesLoop (net n) = true) →
      net k = .ok resp → 200 ≤ resp.statusCode → resp.statusCode < 300 →
      (requestLoop parse net fuel attempt backoff lastErr bodyRem sleeps
        sent).ret = .ok resp.body ∧
      (requestLoop parse net fuel attempt backoff lastErr bodyRem sleeps
        sent).attempts = k + 1 := by
  intro fuel
  induction fuel with
  | zero =>
    intro attempt backoff lastErr bodyRem sleeps sent k resp hak hkf
    omega
  | succ f ih =>
    intro attempt backoff lastErr bodyRem sleeps sent k resp hak hkf hall
      hnet h2a h2b
    rcases Nat.eq_or_lt_of_le hak with heq | hlt
    · subst heq
      simp only [requestLoop, hnet]
      rw [if_neg (show ¬resp.statusCode = 429 by omega)]
      rw [if_neg (show ¬(resp.statusCode < 200 ∨ 300 ≤ resp.statusCode) by
        omega)]
      exact ⟨rfl, rfl⟩
    · obtain ⟨e, hstep⟩ := requestLoop_step parse net f attempt backoff
        lastErr bodyRem sleeps sent (hall attempt le_rfl hlt)
      rw [hstep]
      exact ih (attempt + 1) _ (some e) "" _ _ k resp hlt (by omega)
        (fun n hn1 hn2 => hall n (by omega) hn2) hnet h2a h2b

lemma continuesLoop_of_retriesViaBackoff (nr : NetResult)
    (h : retriesViaBackoff nr = true) : continuesLoop nr = true := by
  cases nr with
  | doErr => rfl
  | readErr resp => rfl
  | ok resp =>
    simp only [retriesViaBackoff, decide_eq_true_eq] at h
    simp only [continuesLoop, decide_eq_true_eq]
    right; exact h

lemma rlSleepOf_nil_of_retriesViaBackoff (nr : NetResult)
    (h : retriesViaBackoff nr = true) : rlSleepOf nr = [] := by
  cases nr with
  | doErr => rfl
  | readErr resp => rfl
  | ok resp =>
    simp only [retriesViaBackoff, decide_eq_true_eq] at h
    simp only [rlSleepOf]
    rw [if_neg (show ¬resp.statusCode = 429 by omega)]

/-- C5: for a server that returns 500 on every attempt, the executor makes
exactly `MaxRetries + 1 = 4` attempts, the total slept delay is
`1 + 2 + 4 = 7` time-units (hence at least 7), and the returned error is
the last recorded classified error wrapped as retries-exhausted; moreover
in every execution the attempt counter only grows (the result counter is at
least the starting counter) and never exceeds `MaxRetries + 1`. -/
theorem C5_retry_bound :
    ((request parseNone netAlways500 "").attempts = MaxRetries + 1 ∧
      elapsed (request parseNone netAlways500 "") = 7 ∧
      (request parseNone netAlways500 "").ret
        = .error (.exhausted (.ynab
            { Message := "HTTP request failed: 500 Internal Server Error",
              StatusCode := 500, ErrorID := "", Detail := "" }))) ∧
    (∀ (parse : String → Option Envelope) (net : Nat → NetResult)
        (b : String), (request parse net b).attempts ≤ MaxRetries + 1) ∧
    (∀ (parse : String → Option Envelope) (net : Nat → NetResult)
        (fuel attempt : Nat) (backoff : Int) (lastErr : Option ReqError)
        (bodyRem : String) (sleeps : List Int) (sent : List String),
      attempt ≤ (requestLoop parse net fuel attempt backoff lastErr bodyRem
        sleeps sent).attempts ∧
      (requestLoop parse net fuel attempt backoff lastErr bodyRem sleeps
        sent).attempts ≤ attempt + fuel) := by
  refine ⟨by decide, ?_, ?_⟩
  · intro parse net b
    have := requestLoop_attempts_ub parse net (MaxRetries + 1) 0
      InitialBackoff none b [] []
    simpa [request] using this
  · intro parse net fuel attempt backoff lastErr bodyRem sleeps sent
    exact ⟨requestLoop_attempts_ge parse net fuel attempt backoff lastErr
        bodyRem sleeps sent,
      requestLoop_attempts_ub parse net fuel attempt backoff lastErr
        bodyRem sleeps sent⟩

/-- C6: a first response whose status is non-2xx and neither 429 nor 5xx
ends the call at exactly 1 attempt with no sleep, returning the auth error
for 401 and the classified error otherwise; conversely any outcome on which
the loop continues (transport failure, read failure, 429, 5xx) forces a
second attempt; and `IsRetryable` holds exactly for rate-limit and server
errors. -/
theorem C6_no_retry_non_retryable :
    (∀ (parse : String → Option Envelope) (b : String)
        (net : Nat → NetResult) (resp : HTTPResponse),
      net 0 = .ok resp →
      (resp.statusCode < 200 ∨ 300 ≤ resp.statusCode) →
      ¬resp.statusCode = 429 →
      ¬(500 ≤ resp.statusCode ∧ resp.statusCode < 600) →
      request parse net b
        = ⟨.error (.ynab (if resp.statusCode = 401 then NewAuthError
            else classifyNon2xx parse resp.statusCode resp.status
              resp.body)), 1, [], [b]⟩) ∧
    (∀ (parse : String → Option Envelope) (b : String)
        (net : Nat → NetResult),
      continuesLoop (net 0) = true → 2 ≤ (request parse net b).attempts) ∧
    (∀ e : YNABError, e.IsRetryable = true
      ↔ (e.StatusCode = 429 ∨ (500 ≤ e.StatusCode ∧ e.StatusCode < 600))) := by
  refine ⟨?_, ?_, ?_⟩
  · intro parse b net resp hnet hn2 h429 hsrv
    simp only [request, MaxRetries, InitialBackoff]
    simp only [requestLoop, hnet]
    rw [if_neg h429, if_pos hn2]
    by_cases h401 : resp.statusCode = 401
    · simp only [if_pos h401]
      simp
    · have hSrvF : (classifyNon2xx parse resp.statusCode resp.status
          resp.body).IsServerError = false := by
        simp only [YNABError.IsServerError, classifyNon2xx_StatusCode,
          decide_eq_false_iff_not]
        omega
      simp only [if_neg h401, if_neg (show ¬(classifyNon2xx parse
        resp.statusCode resp.status resp.body).IsServerError = true by
          simp [hSrvF])]
      simp
  · intro parse b net hcont
    simp only [request, MaxRetries, InitialBackoff]
    obtain ⟨e, hstep⟩ := requestLoop_step parse net 3 0 1 none b [] [] hcont
    rw [hstep]
    simp only [show ¬(0 : Nat) < 0 by omega, if_neg, List.nil_append,
      Nat.zero_add]
    exact requestLoop_attempts_lb parse net 3 1 1 (some e) ""
      (rlSleepOf (net 0)) [b] (by omega)
  · intro e
    simp [YNABError.IsRetryable, YNABError.IsRateLimitError,
      YNABError.IsServerError]

/-- C6 witness: a server that always answers 404 yields exactly one attempt,
no sleep, and the classified not-found error. -/
theorem C6_no_retry_non_retryable_witness :
    request parseNone netAlways404 ""
      = ⟨.error (.ynab (classifyNon2xx parseNone 404 "404 Not Found"
          "nope")), 1, [], [""]⟩ ∧
    2 ≤ (request parseNone netAlways429 "").attempts := by
  constructor
  · have h := C6_no_retry_non_retryable.1 parseNone "" netAlways404 resp404
      rfl (by decide) (by decide) (by decide)
    simpa [resp404] using h
  · exact C6_no_retry_non_retryable.2.1 parseNone "" netAlways429 (by decide)

/-- C7: in a run driven entirely by outcomes that retry through the generic
backoff path (5xx responses, transport failures, body-read failures), the
executor sleeps `InitialBackoff * 2 ^ i` before attempt `i + 2`
(`i = 0, 1, 2`, i.e. delays 1, 2, 4 before attempts 2, 3, 4) and performs
all `MaxRetries + 1` attempts. -/
theorem C7_exponential_backoff (parse : String → Option Envelope)
    (b : String) (net : Nat → NetResult)
    (h : ∀ n, retriesViaBackoff (net n) = true) :
    (request parse net b).sleeps
      = (List.range MaxRetries).map (fun i => InitialBackoff * 2 ^ i) ∧
    (request parse net b).attempts = MaxRetries + 1 := by
  simp only [request, MaxRetries, InitialBackoff]
  obtain ⟨e, hstep⟩ := requestLoop_step parse net 3 0 1 none b [] []
    (continuesLoop_of_retriesViaBackoff _ (h 0))
  rw [hstep]
  simp only [rlSleepOf_nil_of_retriesViaBackoff _ (h 0),
    show ¬(0 : Nat) < 0 by omega, if_neg, ite_false, List.nil_append,
    List.append_nil, not_false_eq_true, Nat.zero_add]
  have hr := requestLoop_backoffRun parse net 3 1 1 (some e) "" [] [b]
    (by omega) (fun n _ _ => h n)
  refine ⟨?_, by omega⟩
  rw [hr.2]
  decide

/-- C7 witness: the always-500 server realizes the hypothesis and exhibits
the 1, 2, 4 schedule. -/
theorem C7_exponential_backoff_witness :
    (request parseNone netAlways500 "").sleeps
      = (List.range MaxRetries).map (fun i => InitialBackoff * 2 ^ i) :=
  (C7_exponential_backoff parseNone "" netAlways500 (fun _ => rfl)).1

/-- C8: an attempt that receives a 2xx response ends the call immediately
with that response's body and no error — on the first attempt this means
exactly 1 attempt and no sleep at all; and concretely a 500 followed by a
200 makes exactly 2 attempts and returns the successful body. -/
theorem C8_success_short_circuits :
    (∀ (parse : String → Option Envelope) (b : String)
        (net : Nat → NetResult) (resp : HTTPResponse),
      net 0 = .ok resp → 200 ≤ resp.statusCode → resp.statusCode < 300 →
      request parse net b = ⟨.ok resp.body, 1, [], [b]⟩) ∧
    ((request parseNone net500Then200 "").attempts = 2 ∧
      (request parseNone net500Then200 "").ret = .ok respOK.body ∧
      (request parseNone net500Then200 "").sleeps = [InitialBackoff]) := by
  refine ⟨?_, by decide⟩
  intro parse b net resp hnet h2a h2b
  simp only [request, MaxRetries, InitialBackoff]
  simp only [requestLoop, hnet]
  rw [if_neg (show ¬resp.statusCode = 429 by omega),
    if_neg (show ¬(resp.statusCode < 200 ∨ 300 ≤ resp.statusCode) by omega)]
  simp

/-- C8 witness: an immediate 200 returns after one attempt with the body
and no sleep. -/
theorem C8_success_short_circuits_witness :
    request parseNone netAlways200 "" = ⟨.ok respOK.body, 1, [], [""]⟩ :=
  C8_success_short_circuits.1 parseNone "" netAlways200 respOK rfl
    (by decide) (by decide)

/-- C9: the same request-body reader is handed to every attempt without
being reset, so after a first attempt whose exchange completed (here a 500)
the reader is drained and the second attempt sends empty bytes, not the
original payload: retried requests are not byte-identical replays. -/
theorem C9_body_reader_consumed :
    (request parseNone net500Then200 "PAYLOAD").sentBodies
      = ["PAYLOAD", ""] ∧
    (request parseNone net500Then200 "PAYLOAD").attempts = 2 ∧
    (request parseNone net500Then200 "PAYLOAD").sentBodies
      ≠ ["PAYLOAD", "PAYLOAD"] := by decide

/-- C10: a completed exchange whose body read fails consumes the attempt
and continues the loop regardless of the status code (here every response
is a 200 whose body read fails), and when this recurs on every attempt the
caller receives the read-failure error wrapped as retries-exhausted. -/
theorem C10_read_failure_retries :
    (∀ (parse : String → Option Envelope) (b : String)
        (net : Nat → NetResult) (resp : HTTPResponse),
      net 0 = .readErr resp → 2 ≤ (request parse net b).attempts) ∧
    request parseNone netAlwaysReadErr ""
      = ⟨.error (.exhausted .readFailed), 4, [1, 2, 4], ["", "", "", ""]⟩ := by
  refine ⟨?_, by decide⟩
  intro parse b net resp hnet
  simp only [request, MaxRetries, InitialBackoff]
  obtain ⟨e, hstep⟩ := requestLoop_step parse net 3 0 1 none b [] []
    (by rw [hnet]; rfl)
  rw [hstep]
  simp only [show ¬(0 : Nat) < 0 by omega, if_neg, List.nil_append,
    Nat.zero_add]
  exact requestLoop_attempts_lb parse net 3 1 1 (some e) ""
    (rlSleepOf (net 0)) [b] (by omega)

/-- C10 witness: the always-read-failure server forces a second attempt. -/
theorem C10_read_failure_retries_witness :
    2 ≤ (request parseNone netAlwaysReadErr "").attempts :=
  C10_read_failure_retries.1 parseNone "" netAlwaysReadErr respOK rfl

/-- C1 counterexample: with a first response of 429 carrying
`Retry-After: 5` and a second response of 200, the executor does make
exactly 2 attempts, but the total slept time is 6 time-units — the
rate-limit sleep of 5 plus the generic 1-unit backoff sleep — so the
claimed bound "at least 5 and strictly less than 6" is false: the server
wait does not replace the exponential backoff. -/
theorem C1_counterexample :
    (request parseNone net429Retry5Then200 "").attempts = 2 ∧
    elapsed (request parseNone net429Retry5Then200 "") = 6 ∧
    ¬(5 ≤ elapsed (request parseNone net429Retry5Then200 "") ∧
      elapsed (request parseNone net429Retry5Then200 "") < 6) := by decide

/-- C1 amended: for a first response of 429 with a parsable `Retry-After`
value `ra` followed by a 200, the executor makes exactly 2 attempts and
sleeps exactly `ra` (inside the 429 handler) plus `InitialBackoff = 1`
(the top-of-loop backoff before the second attempt): the server wait adds
to — rather than replaces — the generic exponential backoff, and the
backoff counter is advanced by the rate-limited attempt. -/
theorem C1_amended (hdr : String) (ra : Int) (hne : hdr ≠ "")
    (hparse : goAtoi hdr = some ra) :
    (request parseNone (net429HdrThen200 hdr) "").attempts = 2 ∧
    (request parseNone (net429HdrThen200 hdr) "").sleeps
      = [ra, InitialBackoff] ∧
    (request parseNone (net429HdrThen200 hdr) "").ret = .ok respOK.body := by
  have hra : retryAfterOf hdr = ra := by
    simp only [retryAfterOf, if_pos hne, hparse]
  refine ⟨?_, ?_, ?_⟩ <;>
    simp [request, requestLoop, net429HdrThen200, resp429, respOK,
      MaxRetries, InitialBackoff, hra, parseNone]

/-- C1 witness: `Retry-After: 5` then 200 sleeps `[5, 1]`. -/
theorem C1_amended_witness :
    ("5" : String) ≠ "" ∧ goAtoi "5" = some 5 ∧
    (request parseNone (net429HdrThen200 "5") "").sleeps
      = [5, InitialBackoff] :=
  ⟨by decide, by decide, (C1_amended "5" 5 (by decide) (by decide)).2.1⟩

/-- C2 counterexample: with a 429 (no header) on every attempt the
executor performs 4 attempts but sleeps 7 times — the claim that the only
suspensions are the top-of-loop waits (at most attempts − 1 of them) is
false: the 429 handler sleeps inside the processing of each attempt, and
also after the final attempt when no further attempt follows. -/
theorem C2_counterexample :
    (request parseNone netAlways429 "").attempts = 4 ∧
    (request parseNone netAlways429 "").sleeps.length = 7 ∧
    ¬((request parseNone netAlways429 "").sleeps.length
        ≤ (request parseNone netAlways429 "").attempts - 1) := by decide

/-- C2 amended: in every execution the number of sleeps equals
(attempts − 1) — the top-of-loop backoff waits, taken exactly when the
attempt counter is positive — plus one additional rate-limit sleep *inside*
the processing of every attempt that received a 429 response (including a
429 on the final attempt, after which no attempt follows). -/
theorem C2_amended (parse : String → Option Envelope)
    (net : Nat → NetResult) (b : String) :
    (request parse net b).sleeps.length
      = ((request parse net b).attempts - 1)
        + count429From net 0 ((request parse net b).attempts) := by
  simp only [request, MaxRetries, InitialBackoff]
  by_cases hcont : continuesLoop (net 0) = true
  · obtain ⟨e, hstep⟩ := requestLoop_step parse net 3 0 1 none b [] [] hcont
    rw [hstep]
    simp only [Nat.lt_irrefl, if_false, ite_false, List.nil_append,
      Nat.zero_add]
    have hge := requestLoop_attempts_ge parse net 3 1 1 (some e) ""
      (rlSleepOf (net 0)) [b]
    have hlen := requestLoop_sleeps_length parse net 3 1 1 (some e) ""
      (rlSleepOf (net 0)) [b] (by omega)
    have hm : (requestLoop parse net 3 1 1 (some e) "" (rlSleepOf (net 0))
        [b]).attempts = ((requestLoop parse net 3 1 1 (some e) ""
          (rlSleepOf (net 0)) [b]).attempts - 1) + 1 := by omega
    have hc : count429From net 0 ((requestLoop parse net 3 1 1 (some e) ""
          (rlSleepOf (net 0)) [b]).attempts)
        = (rlSleepOf (net 0)).length + count429From net 1
            ((requestLoop parse net 3 1 1 (some e) ""
              (rlSleepOf (net 0)) [b]).attempts - 1) := by
      conv_lhs => rw [hm]
      rw [count429From_succ]
    rw [hc]
    omega
  · rw [Bool.not_eq_true] at hcont
    obtain ⟨rv, hstop⟩ := requestLoop_stop parse net 3 0 1 none b [] [] hcont
    rw [hstop]
    show (if 0 < 0 then ([] : List Int) ++ [1] else []).length
      = ((0 + 1) - 1) + count429From net 0 (0 + 1)
    rw [count429From_succ, rlSleepOf_nil_of_stop _ hcont]
    rfl

/-- C3 counterexample: a 429 whose `Retry-After` header is `"-5"` — not a
non-negative integer, so by the claim the wait should be the 60-unit
default — instead passes −5 to the sleep: the sleep log is `[-5, 1]` and
no 60-unit wait ever occurs. -/
theorem C3_counterexample :
    (request parseNone net429Neg5Then200 "").sleeps = [-5, 1] ∧
    (60 : Int) ∉ (request parseNone net429Neg5Then200 "").sleeps ∧
    (request parseNone net429Neg5Then200 "").attempts = 2 := by decide

/-- C3 amended: for a 429 response the duration handed to the rate-limit
sleep is the `Retry-After` header parsed by `strconv.Atoi` — any integer,
negative ones included (Go's sleep then returns immediately) — and the
60-unit default is used exactly when the header is absent or fails `Atoi`;
i.e. the value is `(goAtoi hdr).getD 60`. -/
theorem C3_amended (hdr : String) :
    retryAfterOf hdr = (goAtoi hdr).getD 60 ∧
    (request parseNone (net429HdrThen200 hdr) "").sleeps
      = [(goAtoi hdr).getD 60, InitialBackoff] := by
  have hra : retryAfterOf hdr = (goAtoi hdr).getD 60 := by
    by_cases hne : hdr = ""
    · subst hne; decide
    · simp only [retryAfterOf, if_pos hne]
      cases hg : goAtoi hdr <;> simp [hg]
  refine ⟨hra, ?_⟩
  simp [request, requestLoop, net429HdrThen200, resp429, respOK,
    MaxRetries, InitialBackoff, hra, parseNone]

/-- C4 counterexample: two non-2xx responses for which the claim fails.
A 429 whose body parses as a well-formed envelope yields the fixed
rate-limit error — neither the envelope name nor the synthetic
status-line message, and with a non-empty fixed detail; a 401 whose body
parses likewise yields the fixed auth error, not the envelope contents. -/
theorem C4_counterexample :
    ((request parseEnvAll netAlways429 "").ret
        = .error (.exhausted (.ynab (NewRateLimitError 60))) ∧
      (NewRateLimitError 60).Message ≠ "Bad Request" ∧
      (NewRateLimitError 60).Message
        ≠ "HTTP request failed: " ++ (resp429 "").status ∧
      (NewRateLimitError 60).Detail ≠ "") ∧
    ((request parseEnvAll netAlways401 "").ret
        = .error (.ynab NewAuthError) ∧
      NewAuthError.Message ≠ "Bad Request" ∧
      NewAuthError.Detail ≠ "missing field") := by decide

/-- C4 amended: for every non-2xx response other than 429 (whose handler
builds a fixed rate-limit error before classification is reached) and 401
(where the classified error is discarded in favor of the fixed auth
error), the classifier behaves as claimed: a parsable envelope with a
non-empty name populates message/errorID/detail from the envelope, and an
unparsable body (or an empty envelope name) falls back to the synthetic
status-line message with empty errorID/detail. -/
theorem C4_amended (parse : String → Option Envelope) (sc : Nat)
    (st bd : String) :
    (∀ env : Envelope, parse bd = some env → env.name ≠ "" →
      classifyNon2xx parse sc st bd
        = { Message := env.name, StatusCode := sc, ErrorID := env.id,
            Detail := env.detail }) ∧
    (parse bd = none →
      classifyNon2xx parse sc st bd
        = { Message := "HTTP request failed: " ++ st, StatusCode := sc,
            ErrorID := "", Detail := "" }) ∧
    (∀ env : Envelope, parse bd = some env → env.name = "" →
      classifyNon2xx parse sc st bd
        = { Message := "HTTP request failed: " ++ st, StatusCode := sc,
            ErrorID := "", Detail := "" }) := by
  refine ⟨?_, ?_, ?_⟩
  · intro env hp hn
    simp [classifyNon2xx, hp, hn]
  · intro hp
    simp [classifyNon2xx, hp]
  · intro env hp hn
    simp [classifyNon2xx, hp, hn]

/-- C4 witness: the envelope body of the claim's example with status 400
round-trips into the classified error, and an unparsable body with status
500 falls back to the synthetic message. -/
theorem C4_amended_witness :
    classifyNon2xx parseEnv1 400 "400 Bad Request" envBody1
      = { Message := "Bad Request", StatusCode := 400, ErrorID := "e1",
          Detail := "missing field" } ∧
    classifyNon2xx parseEnv1 500 "500 Internal Server Error" "invalid json"
      = { Message := "HTTP request failed: 500 Internal Server Error",
          StatusCode := 500, ErrorID := "", Detail := "" } := by
  constructor
  · exact (C4_amended parseEnv1 400 "400 Bad Request" envBody1).1
      { id := "e1", name := "Bad Request", detail := "missing field" }
      (by decide) (by decide)
  · exact (C4_amended parseEnv1 500 "500 Internal Server Error"
      "invalid json").2.1 (by decide)

end YnabCli
